import Mathlib

/-!
Shallow embedding of the PrivacyGuardian core (pii_detector.py, guardian_proxy.py,
request_parser.py, llm_endpoints.py) and proofs about it.

Texts are modelled as `List Char` (Python `str`), byte strings as `List Nat`
(each element `< 256`).  Machine words in the SHA-256 core are `Nat` reduced
modulo `2 ^ 32` at every operation.  Fallible code returns `Option`.
-/

set_option maxRecDepth 100000

namespace PrivacyGuardian

/-- Characters of a string literal. -/
def strL (s : String) : List Char := s.data

-- ===========================================================================
-- SHA-256 (embedding of Python's hashlib.sha256(...).hexdigest())
-- ===========================================================================

/-- 2^32, the word modulus of SHA-256. -/
def w32 : Nat := 4294967296

/-- Addition modulo 2^32. -/
def add32 (a b : Nat) : Nat := (a + b) % w32

/-- Right rotation of a 32-bit word. -/
def rotr32 (n x : Nat) : Nat := ((x >>> n) ||| (x <<< (32 - n))) % w32

/-- Right shift of a 32-bit word. -/
def shr32 (n x : Nat) : Nat := x >>> n

/-- Bitwise complement of a 32-bit word. -/
def not32 (x : Nat) : Nat := x ^^^ (w32 - 1)

/-- SHA-256 round constants (FIPS 180-4, given here in decimal). -/
def shaK : List Nat :=
  [1116352408, 1899447441, 3049323471, 3921009573, 961987163,
   1508970993, 2453635748, 2870763221, 3624381080, 310598401,
   607225278, 1426881987, 1925078388, 2162078206, 2614888103,
   3248222580, 3835390401, 4022224774, 264347078, 604807628,
   770255983, 1249150122, 1555081692, 1996064986, 2554220882,
   2821834349, 2952996808, 3210313671, 3336571891, 3584528711,
   113926993, 338241895, 666307205, 773529912, 1294757372,
   1396182291, 1695183700, 1986661051, 2177026350, 2456956037,
   2730485921, 2820302411, 3259730800, 3345764771, 3516065817,
   3600352804, 4094571909, 275423344, 430227734, 506948616,
   659060556, 883997877, 958139571, 1322822218, 1537002063,
   1747873779, 1955562222, 2024104815, 2227730452, 2361852424,
   2428436474, 2756734187, 3204031479, 3329325298]

/-- The eight 32-bit working variables of the compression function. -/
structure ShaState where
  a : Nat
  b : Nat
  c : Nat
  d : Nat
  e : Nat
  f : Nat
  g : Nat
  h : Nat
deriving DecidableEq, Repr

/-- SHA-256 initial hash value (FIPS 180-4, in decimal). -/
def shaH0 : ShaState :=
  ⟨1779033703, 3144134277, 1013904242, 2773480762,
   1359893119, 2600822924, 528734635, 1541459225⟩

/-- One round of the SHA-256 compression function. -/
def shaRound (s : ShaState) (kw : Nat × Nat) : ShaState :=
  let S1 := (rotr32 6 s.e) ^^^ (rotr32 11 s.e) ^^^ (rotr32 25 s.e)
  let ch := (s.e &&& s.f) ^^^ ((not32 s.e) &&& s.g)
  let temp1 := add32 (add32 (add32 (add32 s.h S1) ch) kw.1) kw.2
  let S0 := (rotr32 2 s.a) ^^^ (rotr32 13 s.a) ^^^ (rotr32 22 s.a)
  let maj := (s.a &&& s.b) ^^^ (s.a &&& s.c) ^^^ (s.b &&& s.c)
  let temp2 := add32 S0 maj
  ⟨add32 temp1 temp2, s.a, s.b, s.c, add32 s.d temp1, s.e, s.f, s.g⟩

/-- Extend sixteen message words to the 64-entry message schedule. -/
def shaSchedule (ws : List Nat) : List Nat :=
  (List.range 48).foldl
    (fun acc _ =>
      let n := acc.length
      let w15 := acc.getD (n - 15) 0
      let w2 := acc.getD (n - 2) 0
      let s0 := (rotr32 7 w15) ^^^ (rotr32 18 w15) ^^^ (shr32 3 w15)
      let s1 := (rotr32 17 w2) ^^^ (rotr32 19 w2) ^^^ (shr32 10 w2)
      acc ++ [add32 (add32 (add32 (acc.getD (n - 16) 0) s0) (acc.getD (n - 7) 0)) s1])
    ws

/-- Big-endian packing of a byte list into 32-bit words (4 bytes per word). -/
def bytesToWords : List Nat → List Nat
  | b0 :: b1 :: b2 :: b3 :: rest =>
      (((b0 * 256 + b1) * 256 + b2) * 256 + b3) :: bytesToWords rest
  | _ => []

/-- Split a list into chunks of 64 elements (the `fuel` argument bounds the
recursion; it is instantiated with the list length). -/
def chunks64 (fuel : Nat) (l : List Nat) : List (List Nat) :=
  match fuel, l with
  | _, [] => []
  | 0, l => [l]
  | fuel + 1, l => l.take 64 :: chunks64 fuel (l.drop 64)

/-- Big-endian bytes of a number, `k` bytes wide. -/
def natBytesBE (k n : Nat) : List Nat :=
  (List.range k).map (fun i => (n >>> (8 * (k - 1 - i))) % 256)

/-- SHA-256 message padding: `0x80`, zeros to 56 mod 64, 8-byte big-endian bit length. -/
def shaPad (msg : List Nat) : List Nat :=
  let bitLen := msg.length * 8
  let padZeros := (64 + 56 - (msg.length + 1) % 64) % 64
  msg ++ [0x80] ++ List.replicate padZeros 0 ++ natBytesBE 8 bitLen

/-- Process one 64-byte chunk: run the 64 compression rounds and add the result
to the incoming state, word-wise modulo 2^32. -/
def shaChunk (st : ShaState) (chunk : List Nat) : ShaState :=
  let sched := shaSchedule (bytesToWords chunk)
  let r := (shaK.zip sched).foldl (fun s kw => shaRound s (kw.2, kw.1)) st
  ⟨add32 st.a r.a, add32 st.b r.b, add32 st.c r.c, add32 st.d r.d,
   add32 st.e r.e, add32 st.f r.f, add32 st.g r.g, add32 st.h r.h⟩

/-- The eight words of the SHA-256 digest of a byte string. -/
def sha256words (msg : List Nat) : List Nat :=
  let p := shaPad msg
  let fin := (chunks64 p.length p).foldl shaChunk shaH0
  [fin.a, fin.b, fin.c, fin.d, fin.e, fin.f, fin.g, fin.h]

/-- Lowercase hexadecimal digit characters. -/
def hexChars : List Char := strL "0123456789abcdef"

/-- The lowercase hex digit of `n % 16`. -/
def hexDigit (n : Nat) : Char := hexChars.getD (n % 16) '0'

/-- Fixed-width (8 hex digits) lowercase rendering of a 32-bit word. -/
def wordHex (w : Nat) : List Char :=
  (List.range 8).map (fun i => hexDigit (w >>> (28 - 4 * i)))

/-- `hashlib.sha256(msg).hexdigest()` as a character list. -/
def sha256hex (msg : List Nat) : List Char :=
  ((sha256words msg).map wordHex).flatten

-- ===========================================================================
-- UTF-8 (Python str.encode / bytes.decode)
-- ===========================================================================

/-- UTF-8 encoding of a single character. -/
def utf8Char (c : Char) : List Nat :=
  let n := c.toNat
  if n < 0x80 then [n]
  else if n < 0x800 then
    [0xC0 ||| (n >>> 6), 0x80 ||| (n &&& 0x3F)]
  else if n < 0x10000 then
    [0xE0 ||| (n >>> 12), 0x80 ||| ((n >>> 6) &&& 0x3F), 0x80 ||| (n &&& 0x3F)]
  else
    [0xF0 ||| (n >>> 18), 0x80 ||| ((n >>> 12) &&& 0x3F),
     0x80 ||| ((n >>> 6) &&& 0x3F), 0x80 ||| (n &&& 0x3F)]

/-- Python `str.encode('utf-8')`. -/
def utf8Bytes (s : List Char) : List Nat := (s.map utf8Char).flatten

/-- Whether `b` is a UTF-8 continuation byte, and its payload. -/
def contByte (b : Nat) : Option Nat :=
  if 0x80 ≤ b ∧ b < 0xC0 then some (b &&& 0x3F) else none

/-- Strict UTF-8 decoding (Python `bytes.decode('utf-8')`); rejects overlong
forms, surrogates and out-of-range code points.  The `fuel` argument bounds the
recursion and is instantiated with the byte count. -/
def utf8DecodeAux (fuel : Nat) (l : List Nat) : Option (List Char) :=
  match fuel, l with
  | _, [] => some []
  | 0, _ => none
  | fuel + 1, b :: rest =>
    if b < 0x80 then
      (utf8DecodeAux fuel rest).map (fun cs => Char.ofNat b :: cs)
    else if 0xC0 ≤ b ∧ b < 0xE0 then
      match rest with
      | b1 :: rest' =>
        match contByte b1 with
        | some p1 =>
          let n := (b &&& 0x1F) <<< 6 ||| p1
          if 0x80 ≤ n then
            (utf8DecodeAux fuel rest').map (fun cs => Char.ofNat n :: cs)
          else none
        | none => none
      | _ => none
    else if 0xE0 ≤ b ∧ b < 0xF0 then
      match rest with
      | b1 :: b2 :: rest' =>
        match contByte b1, contByte b2 with
        | some p1, some p2 =>
          let n := (b &&& 0x0F) <<< 12 ||| p1 <<< 6 ||| p2
          if 0x800 ≤ n ∧ ¬ (0xD800 ≤ n ∧ n ≤ 0xDFFF) then
            (utf8DecodeAux fuel rest').map (fun cs => Char.ofNat n :: cs)
          else none
        | _, _ => none
      | _ => none
    else if 0xF0 ≤ b ∧ b < 0xF8 then
      match rest with
      | b1 :: b2 :: b3 :: rest' =>
        match contByte b1, contByte b2, contByte b3 with
        | some p1, some p2, some p3 =>
          let n := (b &&& 0x07) <<< 18 ||| p1 <<< 12 ||| p2 <<< 6 ||| p3
          if 0x10000 ≤ n ∧ n ≤ 0x10FFFF then
            (utf8DecodeAux fuel rest').map (fun cs => Char.ofNat n :: cs)
          else none
        | _, _, _ => none
      | _ => none
    else none

/-- Python `bytes.decode('utf-8')`: `none` models `UnicodeDecodeError`. -/
def utf8Decode (l : List Nat) : Option (List Char) := utf8DecodeAux l.length l

-- ===========================================================================
-- PIIType (pii_detector.py, class PIIType)
-- ===========================================================================

/-- The closed enumeration of PII kinds (pii_detector.py, `class PIIType`). -/
inductive PIIType where
  | EMAIL | PHONE | SSN | PASSPORT | DRIVERS_LICENSE | DATE_OF_BIRTH
  | CREDIT_CARD | BANK_ACCOUNT | IBAN | ROUTING_NUMBER | TAX_ID | VAT_NUMBER
  | MEDICAL_RECORD | HEALTH_INSURANCE | DEA_NUMBER | NPI | ICD_CODE | NDC_CODE
  | CASE_NUMBER | BAR_NUMBER | COURT_DOCKET
  | EIN | DUNS_NUMBER
  | API_KEY | AWS_KEY | PRIVATE_KEY | PASSWORD | IP_ADDRESS | MAC_ADDRESS
  | JWT_TOKEN | GITHUB_TOKEN | SLACK_TOKEN | DATABASE_URL | SECRET
  | OPENAI_KEY | GOOGLE_KEY | STRIPE_KEY
deriving DecidableEq, Repr

instance : Inhabited PIIType := ⟨.EMAIL⟩

/-- The string code of each kind (`PIIType.value` in the source). -/
def PIIType.value : PIIType → String
  | .EMAIL => "EMAIL"
  | .PHONE => "PHONE"
  | .SSN => "SSN"
  | .PASSPORT => "PASSPORT"
  | .DRIVERS_LICENSE => "DRV_LIC"
  | .DATE_OF_BIRTH => "DOB"
  | .CREDIT_CARD => "CREDIT_CARD"
  | .BANK_ACCOUNT => "BANK_ACCT"
  | .IBAN => "IBAN"
  | .ROUTING_NUMBER => "ROUTING"
  | .TAX_ID => "TAX_ID"
  | .VAT_NUMBER => "VAT"
  | .MEDICAL_RECORD => "MRN"
  | .HEALTH_INSURANCE => "HEALTH_INS"
  | .DEA_NUMBER => "DEA"
  | .NPI => "NPI"
  | .ICD_CODE => "ICD"
  | .NDC_CODE => "NDC"
  | .CASE_NUMBER => "CASE_NUM"
  | .BAR_NUMBER => "BAR_NUM"
  | .COURT_DOCKET => "DOCKET"
  | .EIN => "EIN"
  | .DUNS_NUMBER => "DUNS"
  | .API_KEY => "API_KEY"
  | .AWS_KEY => "AWS_KEY"
  | .PRIVATE_KEY => "PRIVATE_KEY"
  | .PASSWORD => "PASSWORD"
  | .IP_ADDRESS => "IP_ADDRESS"
  | .MAC_ADDRESS => "MAC_ADDRESS"
  | .JWT_TOKEN => "JWT_TOKEN"
  | .GITHUB_TOKEN => "GITHUB_TOKEN"
  | .SLACK_TOKEN => "SLACK_TOKEN"
  | .DATABASE_URL => "DATABASE_URL"
  | .SECRET => "SECRET"
  | .OPENAI_KEY => "OPENAI_KEY"
  | .GOOGLE_KEY => "GOOGLE_KEY"
  | .STRIPE_KEY => "STRIPE_KEY"

-- ===========================================================================
-- Token id (guardian_proxy.py, TokenVault.encrypt_pii, lines 120-122)
-- ===========================================================================

/-- `hashlib.sha256(value.encode()).hexdigest()[:12]` for a text value. -/
def valueHash12 (value : List Char) : List Char :=
  (sha256hex (utf8Bytes value)).take 12

/-- `f"◈PG:{pii_type.value[:4]}_{value_hash}◈"`. -/
def token_id_of (piiType : PIIType) (value : List Char) : List Char :=
  strL "◈PG:" ++ (strL piiType.value).take 4 ++ '_' :: valueHash12 value ++ ['◈']

/-- Characters admitted by the `[A-Z_]` class of the token pattern. -/
def isKindChar (c : Char) : Prop := ('A' ≤ c ∧ c ≤ 'Z') ∨ c = '_'

instance : DecidablePred isKindChar := fun c => by unfold isKindChar; infer_instance

/-- Characters admitted by the `[a-f0-9]` class of the token pattern. -/
def isHexChar (c : Char) : Prop := c ∈ hexChars

instance : DecidablePred isHexChar := fun c => by unfold isHexChar; infer_instance

/-- A string matches the wire pattern `◈PG:[A-Z_]{1,8}_[a-f0-9]{12}◈` exactly:
it decomposes as the literal prefix, 1-8 kind characters, an underscore, 12
lowercase hex digits and the closing diamond, with nothing else. -/
def token_wire_shape (s : List Char) : Prop :=
  ∃ kp hp : List Char,
    s = strL "◈PG:" ++ kp ++ '_' :: hp ++ ['◈'] ∧
    1 ≤ kp.length ∧ kp.length ≤ 8 ∧ (∀ c ∈ kp, isKindChar c) ∧
    hp.length = 12 ∧ (∀ c ∈ hp, isHexChar c)

-- ---------------------------------------------------------------------------
-- Shape lemmas for sha256hex
-- ---------------------------------------------------------------------------

theorem hexDigit_mem (n : Nat) : hexDigit n ∈ hexChars := by
  unfold hexDigit
  have h : n % 16 < 16 := Nat.mod_lt _ (by norm_num)
  set m := n % 16 with hm
  interval_cases m <;> decide

theorem wordHex_length (w : Nat) : (wordHex w).length = 8 := by
  simp [wordHex]

theorem wordHex_mem {c : Char} {w : Nat} (h : c ∈ wordHex w) : c ∈ hexChars := by
  simp only [wordHex, List.mem_map] at h
  obtain ⟨i, -, rfl⟩ := h
  exact hexDigit_mem _

theorem sha256words_length (msg : List Nat) : (sha256words msg).length = 8 := by
  simp [sha256words]

theorem join_map_wordHex_length (ws : List Nat) :
    ((ws.map wordHex).flatten).length = 8 * ws.length := by
  induction ws with
  | nil => simp
  | cons w ws ih =>
    simp only [List.map_cons, List.flatten_cons, List.length_append, ih,
      wordHex_length, List.length_cons]
    ring

theorem sha256hex_length (msg : List Nat) : (sha256hex msg).length = 64 := by
  unfold sha256hex
  rw [join_map_wordHex_length, sha256words_length]

theorem sha256hex_hex (msg : List Nat) : ∀ c ∈ sha256hex msg, isHexChar c := by
  intro c hc
  unfold sha256hex at hc
  rw [List.mem_flatten] at hc
  obtain ⟨l, hl, hcl⟩ := hc
  rw [List.mem_map] at hl
  obtain ⟨w, -, rfl⟩ := hl
  exact wordHex_mem hcl

/-- C4: every token produced by interning matches `◈PG:[A-Z_]{1,8}_[a-f0-9]{12}◈`
exactly: for every value and PII kind, the token built by `encrypt_pii` is the
literal `◈PG:`, the first at-most-4 characters of the kind code (all uppercase
letters or underscores, here always 3 or 4 of them), an underscore, the first 12
lowercase-hex characters of SHA-256 of the value, and `◈`. -/
theorem token_format_wire_shape (k : PIIType) (v : List Char) :
    token_wire_shape (token_id_of k v) := by
  refine ⟨(strL k.value).take 4, valueHash12 v, rfl, ?_, ?_, ?_, ?_, ?_⟩
  · cases k <;> decide
  · cases k <;> decide
  · cases k <;> decide
  · simp [valueHash12, List.length_take, sha256hex_length]
  · intro c hc
    exact sha256hex_hex _ _ (List.mem_of_mem_take hc)

-- ===========================================================================
-- Token vault (guardian_proxy.py, class TokenVault)
-- ===========================================================================

/-- A row of the `tokens` table.  `value` stands for `encrypted_value`: the
source stores `Fernet(master_key).encrypt(value.encode())` and always reads it
back through `decrypt`, which inverts `encrypt`, so the embedding keeps the
plaintext.  The `created_at`/`last_used` timestamps carry no logic and are not
modelled. -/
structure TokenEntry where
  token_id : List Char
  pii_type : String
  value : List Char
  use_count : Nat
  provider : Option String
deriving DecidableEq, Repr

/-- A row of the `activity_log` table (timestamp not modelled). -/
structure ActivityRecord where
  provider : Option String
  pii_type : String
  action : String
  masked_value : List Char
deriving DecidableEq, Repr

/-- The vault state: the `tokens` table and the `activity_log` table, each in
row-insertion order. -/
structure Vault where
  entries : List TokenEntry
  log : List ActivityRecord
deriving DecidableEq, Repr

/-- A vault as created on first launch: both tables empty. -/
def emptyVault : Vault := ⟨[], []⟩

/-- `f"{value[:3]}***{value[-3:]}" if len(value) > 6 else "***"`. -/
def maskValue (v : List Char) : List Char :=
  if 6 < v.length then v.take 3 ++ strL "***" ++ v.drop (v.length - 3)
  else strL "***"

/-- The `SELECT token_id FROM tokens WHERE token_id = ?` existence check. -/
def vaultHas (st : Vault) (t : List Char) : Bool :=
  st.entries.any (fun e => e.token_id == t)

/-- `TokenVault.encrypt_pii` (guardian_proxy.py lines 120-160): compute the
token id; if a row with that id exists, bump its `use_count` and log nothing;
otherwise insert a new row and exactly one `protected` activity record.
Returns `(token_id, is_new)` and the new vault state. -/
def encrypt_pii (st : Vault) (value : List Char) (piiType : PIIType)
    (provider : Option String) : (List Char × Bool) × Vault :=
  let token := token_id_of piiType value
  match vaultHas st token with
  | true =>
    ((token, false),
     { st with
        entries := st.entries.map (fun e =>
          if e.token_id == token then { e with use_count := e.use_count + 1 } else e) })
  | false =>
    ((token, true),
     { entries := st.entries ++ [⟨token, piiType.value, value, 1, provider⟩],
       log := st.log ++ [⟨provider, piiType.value, "protected", maskValue value⟩] })

/-- A sequence of `encrypt_pii` calls against a vault (its lifetime). -/
def intern_run (st : Vault) (l : List (List Char × PIIType × Option String)) : Vault :=
  l.foldl (fun s i => (encrypt_pii s i.1 i.2.1 i.2.2).2) st

/-- The token ids currently in the vault, in insertion order. -/
def vaultTokens (st : Vault) : List (List Char) := st.entries.map (·.token_id)

/-- The token id an intern-call argument triple maps to. -/
def tokenOfCall (i : List Char × PIIType × Option String) : List Char :=
  token_id_of i.2.1 i.1

theorem vaultHas_iff_mem (st : Vault) (t : List Char) :
    vaultHas st t = true ↔ t ∈ vaultTokens st := by
  unfold vaultHas vaultTokens
  rw [List.any_eq_true]
  constructor
  · rintro ⟨e, he, heq⟩
    rw [beq_iff_eq] at heq
    exact List.mem_map.mpr ⟨e, he, heq⟩
  · intro h
    obtain ⟨e, he, rfl⟩ := List.mem_map.mp h
    exact ⟨e, he, beq_self_eq_true _⟩

theorem intern_run_nil (st : Vault) : intern_run st [] = st := rfl

theorem intern_run_cons (st : Vault) (i : List Char × PIIType × Option String)
    (l : List (List Char × PIIType × Option String)) :
    intern_run st (i :: l) = intern_run (encrypt_pii st i.1 i.2.1 i.2.2).2 l := rfl

theorem bump_preserves_token (t : List Char) (e : TokenEntry) :
    (if e.token_id == t then { e with use_count := e.use_count + 1 } else e).token_id
      = e.token_id := by
  split <;> rfl

theorem encrypt_pii_tokens (st : Vault) (v : List Char) (k : PIIType) (p : Option String) :
    vaultTokens (encrypt_pii st v k p).2 =
      if token_id_of k v ∈ vaultTokens st then vaultTokens st
      else vaultTokens st ++ [token_id_of k v] := by
  cases hfound : vaultHas st (token_id_of k v) with
  | true =>
    rw [if_pos ((vaultHas_iff_mem st _).mp hfound)]
    simp only [encrypt_pii, hfound, vaultTokens, List.map_map]
    exact List.map_congr_left (fun e _ => bump_preserves_token _ e)
  | false =>
    have hmem : ¬ token_id_of k v ∈ vaultTokens st := fun h => by
      rw [← vaultHas_iff_mem st _] at h
      rw [hfound] at h
      exact Bool.false_ne_true h
    rw [if_neg hmem]
    simp only [encrypt_pii, hfound, vaultTokens, List.map_append]
    rfl

theorem encrypt_pii_mem (st : Vault) (v : List Char) (k : PIIType) (p : Option String)
    (t : List Char) :
    t ∈ vaultTokens (encrypt_pii st v k p).2 ↔
      t ∈ vaultTokens st ∨ t = token_id_of k v := by
  rw [encrypt_pii_tokens]
  split
  · rename_i h
    constructor
    · exact Or.inl
    · rintro (ht | rfl)
      · exact ht
      · exact h
  · simp

theorem encrypt_pii_nodup (st : Vault) (v : List Char) (k : PIIType) (p : Option String)
    (h : (vaultTokens st).Nodup) : (vaultTokens (encrypt_pii st v k p).2).Nodup := by
  rw [encrypt_pii_tokens]
  split
  · exact h
  · rename_i hmem
    simp [List.nodup_append, h, hmem]

theorem encrypt_pii_lockstep (st : Vault) (v : List Char) (k : PIIType) (p : Option String) :
    (encrypt_pii st v k p).2.log.length + st.entries.length =
      (encrypt_pii st v k p).2.entries.length + st.log.length := by
  cases hfound : vaultHas st (token_id_of k v) <;>
    simp only [encrypt_pii, hfound, if_true, if_false, List.length_map,
      List.length_append, List.length_cons, List.length_nil] <;>
    omega

theorem intern_run_lockstep (l : List (List Char × PIIType × Option String)) :
    ∀ st : Vault, (intern_run st l).log.length + st.entries.length =
      (intern_run st l).entries.length + st.log.length := by
  induction l with
  | nil =>
    intro st
    rw [intern_run_nil]
    omega
  | cons i l ih =>
    intro st
    rw [intern_run_cons]
    have hstep := encrypt_pii_lockstep st i.1 i.2.1 i.2.2
    have hrun := ih (encrypt_pii st i.1 i.2.1 i.2.2).2
    omega

theorem intern_run_mem (l : List (List Char × PIIType × Option String)) :
    ∀ (st : Vault) (t : List Char),
      t ∈ vaultTokens (intern_run st l) ↔ t ∈ vaultTokens st ∨ t ∈ l.map tokenOfCall := by
  induction l with
  | nil =>
    intro st t
    rw [intern_run_nil]
    simp
  | cons i l ih =>
    intro st t
    rw [intern_run_cons, ih, encrypt_pii_mem]
    simp only [List.map_cons, List.mem_cons, tokenOfCall]
    tauto

theorem intern_run_nodup (l : List (List Char × PIIType × Option String)) :
    ∀ st : Vault, (vaultTokens st).Nodup → (vaultTokens (intern_run st l)).Nodup := by
  induction l with
  | nil =>
    intro st h
    rw [intern_run_nil]
    exact h
  | cons i l ih =>
    intro st h
    rw [intern_run_cons]
    exact ih _ (encrypt_pii_nodup st i.1 i.2.1 i.2.2 h)

/-- C2 (amended): across the lifetime of a vault, exactly one activity record
is emitted per distinct *token id* — i.e. per distinct
`(kind_code[:4], sha256(value)[:12])` pair — not per distinct `(value, kind)`
pair: the first intern of a `(value, kind)` pair logs a record iff no earlier
intern produced the same token id, and every later intern of that pair logs
nothing. -/
theorem activity_one_record_per_distinct_token
    (l : List (List Char × PIIType × Option String)) :
    (intern_run emptyVault l).log.length = ((l.map tokenOfCall).dedup).length := by
  have h1 := intern_run_lockstep l emptyVault
  have h2 : (vaultTokens (intern_run emptyVault l)).Nodup :=
    intern_run_nodup l emptyVault (by simp [emptyVault, vaultTokens])
  have h3 : (vaultTokens (intern_run emptyVault l)).toFinset =
      ((l.map tokenOfCall).dedup).toFinset := by
    refine Finset.ext fun t => ?_
    rw [List.mem_toFinset, List.mem_toFinset, intern_run_mem, List.mem_dedup]
    simp [emptyVault, vaultTokens]
  have h4 := List.toFinset_card_of_nodup h2
  have h5 := List.toFinset_card_of_nodup (List.nodup_dedup (l.map tokenOfCall))
  have h6 : (vaultTokens (intern_run emptyVault l)).length =
      ((l.map tokenOfCall).dedup).length := by rw [← h4, ← h5, h3]
  have h7 : (vaultTokens (intern_run emptyVault l)).length =
      (intern_run emptyVault l).entries.length := List.length_map _ _
  have h8 : emptyVault.entries.length = 0 := rfl
  have h9 : emptyVault.log.length = 0 := rfl
  omega

/-- C2 counterexample: interning the same value `"x"` under the two distinct
kinds PASSPORT and PASSWORD (two distinct `(value, kind)` pairs) emits only one
activity record in total, because both truncate to the same token id; the claim
as stated would require two records. -/
theorem activity_per_pair_counterexample :
    PIIType.PASSPORT ≠ PIIType.PASSWORD ∧
    (intern_run emptyVault
      [(strL "x", .PASSPORT, none), (strL "x", .PASSWORD, none)]).log.length = 1 := by
  constructor
  · decide
  · decide

theorem passport_password_take4 :
    (strL PIIType.PASSPORT.value).take 4 = (strL PIIType.PASSWORD.value).take 4 := by
  decide

/-- C9: the token id depends only on the first 4 characters of the kind code
and the first 12 hex digits of SHA-256 of the value, so PASSPORT (code
`PASSPORT`) and PASSWORD (code `PASSWORD`), both truncating to `PASS`, produce
the identical token for the same value; interning under both kinds shares a
single vault entry whose stored kind, value and activity record are those of
the first-interned kind, with `use_count` 2. -/
theorem passport_password_token_collision (v : List Char) (pr : Option String) :
    token_id_of .PASSPORT v = token_id_of .PASSWORD v ∧
    (intern_run emptyVault [(v, .PASSPORT, pr), (v, .PASSWORD, pr)]).entries.map
        (fun e => (e.token_id, e.pii_type, e.value, e.use_count)) =
      [(token_id_of .PASSPORT v, "PASSPORT", v, 2)] ∧
    (intern_run emptyVault [(v, .PASSPORT, pr), (v, .PASSWORD, pr)]).log.map
        (fun r => (r.pii_type, r.action)) = [("PASSPORT", "protected")] := by
  have htok : token_id_of .PASSPORT v = token_id_of .PASSWORD v := by
    unfold token_id_of
    rw [passport_password_take4]
  have hstep1 : encrypt_pii emptyVault v .PASSPORT pr =
      ((token_id_of .PASSPORT v, true),
       ⟨[⟨token_id_of .PASSPORT v, "PASSPORT", v, 1, pr⟩],
        [⟨pr, "PASSPORT", "protected", maskValue v⟩]⟩) := rfl
  have hrun : intern_run emptyVault [(v, .PASSPORT, pr), (v, .PASSWORD, pr)] =
      (encrypt_pii (encrypt_pii emptyVault v .PASSPORT pr).2 v .PASSWORD pr).2 := rfl
  have hstep2 : (encrypt_pii (encrypt_pii emptyVault v .PASSPORT pr).2 v .PASSWORD pr).2 =
      ⟨[⟨token_id_of .PASSPORT v, "PASSPORT", v, 2, pr⟩],
       [⟨pr, "PASSPORT", "protected", maskValue v⟩]⟩ := by
    rw [hstep1]
    simp only [encrypt_pii, vaultHas, List.any_cons, List.any_nil, ← htok,
      beq_self_eq_true, Bool.true_or, List.map_cons, List.map_nil, if_pos]
  refine ⟨htok, ?_, ?_⟩ <;> rw [hrun, hstep2] <;> rfl

-- ===========================================================================
-- Python string operations (str.replace, `in`) and unprotect_text
-- ===========================================================================

/-- Recursion core of Python `str.replace`: scan left to right, replace each
non-overlapping occurrence of `t` by `r`, never rescanning the inserted `r`.
`fuel` bounds the recursion; instantiated with the length of `s`, which
suffices whenever `t` is nonempty. -/
def replaceFuel (fuel : Nat) (s t r : List Char) : List Char :=
  match fuel, s with
  | _, [] => []
  | 0, s => s
  | fuel + 1, c :: s' =>
    if t.isPrefixOf (c :: s') then r ++ replaceFuel fuel ((c :: s').drop t.length) t r
    else c :: replaceFuel fuel s' t r

/-- Python `s.replace(t, r)` (including the empty-needle case, where Python
inserts `r` before every character and at the end). -/
def pyReplace (s t r : List Char) : List Char :=
  if t.isEmpty then r ++ (s.map (fun c => c :: r)).flatten
  else replaceFuel s.length s t r

/-- Python `t in s` (substring containment). -/
def containsSub (s t : List Char) : Bool :=
  s.tails.any (fun u => t.isPrefixOf u)

/-- `TokenVault.get_all_tokens` (guardian_proxy.py 174-182): the full
`token_id → plaintext` map, in row order.  (`cipher.decrypt` inverts
`cipher.encrypt`, so every stored row decrypts successfully and the
`continue` branch is never taken.) -/
def get_all_tokens (st : Vault) : List (List Char × List Char) :=
  st.entries.map (fun e => (e.token_id, e.value))

/-- `PrivacyGuardianProxy.unprotect_text` (guardian_proxy.py 261-268):
replace every stored token occurring in the text by its plaintext, iterating
the vault map in row order. -/
def unprotect_text (st : Vault) (text : List Char) : List Char :=
  (get_all_tokens st).foldl
    (fun result tv => if containsSub result tv.1 then pyReplace result tv.1 tv.2 else result)
    text

theorem containsSub_nil (t : List Char) (ht : t ≠ []) : containsSub [] t = false := by
  cases t with
  | nil => exact absurd rfl ht
  | cons c t' => rfl

theorem containsSub_cons (c : Char) (s t : List Char) :
    containsSub (c :: s) t = (t.isPrefixOf (c :: s) || containsSub s t) := rfl

theorem replaceFuel_of_not_sub (t r : List Char) :
    ∀ (fuel : Nat) (s : List Char), containsSub s t = false → replaceFuel fuel s t r = s := by
  intro fuel
  induction fuel with
  | zero => intro s _; cases s <;> rfl
  | succ fuel ih =>
    intro s hs
    cases s with
    | nil => rfl
    | cons c s' =>
      rw [containsSub_cons, Bool.or_eq_false_iff] at hs
      rw [replaceFuel, if_neg (by rw [hs.1]; exact Bool.false_ne_true), ih s' hs.2]

theorem pyReplace_of_not_sub (s t r : List Char) (ht : t ≠ [])
    (hs : containsSub s t = false) : pyReplace s t r = s := by
  rw [pyReplace, if_neg (by simpa [List.isEmpty_iff] using ht)]
  exact replaceFuel_of_not_sub t r _ s hs

theorem fold_unprotect_no_occ (l : List (List Char × List Char)) :
    ∀ acc : List Char, (∀ q ∈ l, containsSub acc q.1 = false) →
      l.foldl (fun result tv =>
        if containsSub result tv.1 then pyReplace result tv.1 tv.2 else result) acc = acc := by
  induction l with
  | nil => intro acc _; rfl
  | cons q l ih =>
    intro acc h
    rw [List.foldl_cons, if_neg (by rw [h q (List.mem_cons_self q l)]; exact Bool.false_ne_true)]
    exact ih acc (fun q' hq' => h q' (List.mem_cons_of_mem q hq'))

theorem token_id_of_ne_nil (k : PIIType) (v : List Char) : token_id_of k v ≠ [] := by
  unfold token_id_of
  intro h
  exact absurd (congrArg List.length h) (by simp [strL])

/-- C1 (amended): if `p` was interned under kind `k` (so the vault maps
`token_id_of k p ↦ p`) and the surrounding text contains no *other* vault
token — neither before nor after the substitution — then `unprotect_text`
returns exactly the text with every occurrence of the token replaced by `p`.
(As universally stated over all texts the claim fails, because texts holding a
second vault token get that token replaced too; see the counterexample.) -/
theorem unprotect_text_round_trip (st : Vault) (k : PIIType) (p text : List Char)
    (pre post : List (List Char × List Char))
    (hsplit : get_all_tokens st = pre ++ (token_id_of k p, p) :: post)
    (hpre : ∀ q ∈ pre, containsSub text q.1 = false)
    (hpost : ∀ q ∈ post, containsSub (pyReplace text (token_id_of k p) p) q.1 = false) :
    unprotect_text st text = pyReplace text (token_id_of k p) p := by
  unfold unprotect_text
  rw [hsplit, List.foldl_append, fold_unprotect_no_occ pre text hpre, List.foldl_cons]
  cases hocc : containsSub text (token_id_of k p) with
  | true =>
    rw [if_pos rfl]
    exact fold_unprotect_no_occ post _ hpost
  | false =>
    have hrepl : pyReplace text (token_id_of k p) p = text :=
      pyReplace_of_not_sub _ _ _ (token_id_of_ne_nil k p) hocc
    rw [if_neg Bool.false_ne_true, hrepl]
    exact fold_unprotect_no_occ post text (fun q hq => by rw [← hrepl]; exact hpost q hq)

/-- The vault after interning `a@b.co` as EMAIL. -/
def vaultOneEmail : Vault :=
  intern_run emptyVault [(strL "a@b.co", .EMAIL, none)]

/-- Witness for C1: in a vault holding exactly the EMAIL token for `a@b.co`,
detokenizing `"Hi <token>!"` restores `"Hi a@b.co!"`. -/
theorem unprotect_text_round_trip_witness :
    unprotect_text vaultOneEmail
        (strL "Hi " ++ token_id_of .EMAIL (strL "a@b.co") ++ strL "!") =
      pyReplace (strL "Hi " ++ token_id_of .EMAIL (strL "a@b.co") ++ strL "!")
        (token_id_of .EMAIL (strL "a@b.co")) (strL "a@b.co") :=
  unprotect_text_round_trip vaultOneEmail .EMAIL (strL "a@b.co")
    (strL "Hi " ++ token_id_of .EMAIL (strL "a@b.co") ++ strL "!") [] []
    (by decide) (by decide) (by decide)

/-- The vault after interning `a@b.co` and `x@y.io` as EMAIL. -/
def vaultTwoEmails : Vault :=
  intern_run emptyVault [(strL "a@b.co", .EMAIL, none), (strL "x@y.io", .EMAIL, none)]

/-- C1 counterexample: with two tokens in the vault, a text containing both is
*not* mapped to "the same text with every occurrence of the first token
replaced by its plaintext": the second token gets replaced as well. -/
theorem unprotect_text_round_trip_counterexample :
    containsSub
        (token_id_of .EMAIL (strL "a@b.co") ++ token_id_of .EMAIL (strL "x@y.io"))
        (token_id_of .EMAIL (strL "a@b.co")) = true ∧
    get_all_tokens vaultTwoEmails =
      [(token_id_of .EMAIL (strL "a@b.co"), strL "a@b.co"),
       (token_id_of .EMAIL (strL "x@y.io"), strL "x@y.io")] ∧
    unprotect_text vaultTwoEmails
        (token_id_of .EMAIL (strL "a@b.co") ++ token_id_of .EMAIL (strL "x@y.io")) ≠
      pyReplace
        (token_id_of .EMAIL (strL "a@b.co") ++ token_id_of .EMAIL (strL "x@y.io"))
        (token_id_of .EMAIL (strL "a@b.co")) (strL "a@b.co") := by
  refine ⟨by decide, by decide, by decide⟩

-- ===========================================================================
-- PII detection: span post-processing (pii_detector.py, PIIDetector.detect
-- lines 324-350 and _remove_overlaps lines 352-365)
-- ===========================================================================

/-- A detected span (`PIIMatch` in the source; the source's `end` field is
named `stop` here because `end` is reserved in Lean).  Confidence is the
constant 95/100 in the source and carries no logic. -/
structure PIIMatch where
  pii_type : PIIType
  value : List Char
  start : Nat
  stop : Nat
  confidence : ℚ
deriving DecidableEq

/-- The sort key of `detect`: `key=lambda m: (m.start, -m.end)` — ascending
start, then descending end. -/
def matchKeyLE (a b : PIIMatch) : Prop :=
  a.start < b.start ∨ (a.start = b.start ∧ b.stop ≤ a.stop)

instance : DecidableRel matchKeyLE := fun a b => by unfold matchKeyLE; infer_instance

/-- The loop of `_remove_overlaps`: walk the list keeping a span only when its
start is at least the end of the last kept span (`last_end` starts at -1). -/
def remove_overlaps_go : List PIIMatch → Int → List PIIMatch
  | [], _ => []
  | m :: rest, lastEnd =>
    if (m.start : Int) ≥ lastEnd then m :: remove_overlaps_go rest m.stop
    else remove_overlaps_go rest lastEnd

/-- `PIIDetector._remove_overlaps`. -/
def remove_overlaps (ms : List PIIMatch) : List PIIMatch :=
  remove_overlaps_go ms (-1)

/-- The span post-processing of `PIIDetector.detect`, parameterized by the
collected raw pattern matches (`matches` as built by the `finditer` loops):
stable-sort by `(start, -end)` and remove overlaps greedily.  Python's
`list.sort` is stable, as is `List.insertionSort`, so for this total preorder
they produce the same list. -/
def detect_from_matches (ms : List PIIMatch) : List PIIMatch :=
  remove_overlaps (List.insertionSort matchKeyLE ms)

theorem remove_overlaps_go_spec :
    ∀ (l : List PIIMatch) (e : Int), (∀ m ∈ l, m.start < m.stop) →
      (∀ x ∈ remove_overlaps_go l e, e ≤ (x.start : Int)) ∧
      List.Pairwise (fun a b => a.stop ≤ b.start ∧ a.start < b.start)
        (remove_overlaps_go l e) := by
  intro l
  induction l with
  | nil => intro e _; exact ⟨fun x hx => absurd hx (List.not_mem_nil x), List.Pairwise.nil⟩
  | cons m rest ih =>
    intro e hwf
    have hwfm : m.start < m.stop := hwf m (List.mem_cons_self m rest)
    have hwfr : ∀ x ∈ rest, x.start < x.stop := fun x hx => hwf x (List.mem_cons_of_mem m hx)
    by_cases h : (m.start : Int) ≥ e
    · obtain ⟨ih1, ih2⟩ := ih (m.stop : Int) hwfr
      rw [remove_overlaps_go, if_pos h]
      constructor
      · intro x hx
        rcases List.mem_cons.mp hx with rfl | hx'
        · exact h
        · have := ih1 x hx'
          omega
      · refine List.Pairwise.cons (fun b hb => ?_) ih2
        have := ih1 b hb
        omega
    · obtain ⟨ih1, ih2⟩ := ih e hwfr
      rw [remove_overlaps_go, if_neg h]
      exact ⟨ih1, ih2⟩

theorem remove_overlaps_go_sublist :
    ∀ (l : List PIIMatch) (e : Int), List.Sublist (remove_overlaps_go l e) l := by
  intro l
  induction l with
  | nil => intro e; exact List.Sublist.refl []
  | cons m rest ih =>
    intro e
    by_cases h : (m.start : Int) ≥ e
    · rw [remove_overlaps_go, if_pos h]
      exact List.Sublist.cons₂ m (ih (m.stop : Int))
    · rw [remove_overlaps_go, if_neg h]
      exact List.Sublist.cons m (ih e)

/-- C5: for every collection of raw pattern matches whose spans are well
formed (`start < end`), `detect` post-processing equals sorting by ascending
start / descending end followed by the greedy `start ≥ last_end` walk; the
result is a subsequence of the sorted list, its spans are pairwise
non-overlapping (`a.end ≤ b.start` for every earlier/later pair), and they are
listed in strictly ascending start order. -/
theorem detect_spans_sorted_nonoverlapping (ms : List PIIMatch)
    (hwf : ∀ m ∈ ms, m.start < m.stop) :
    detect_from_matches ms =
      remove_overlaps_go (List.insertionSort matchKeyLE ms) (-1) ∧
    List.Sublist (detect_from_matches ms) (List.insertionSort matchKeyLE ms) ∧
    List.Pairwise (fun a b => a.stop ≤ b.start ∧ a.start < b.start)
      (detect_from_matches ms) := by
  have hperm : ∀ m ∈ List.insertionSort matchKeyLE ms, m.start < m.stop := fun m hm =>
    hwf m ((List.perm_insertionSort matchKeyLE ms).mem_iff.mp hm)
  exact ⟨rfl, remove_overlaps_go_sublist _ _,
    (remove_overlaps_go_spec (List.insertionSort matchKeyLE ms) (-1) hperm).2⟩

/-- Witness for C5 at two overlapping raw matches: the post-processing keeps
the leftmost-longest span and drops the overlapping one. -/
theorem detect_spans_sorted_nonoverlapping_witness :
    (∀ m ∈ [PIIMatch.mk .EMAIL (strL "ab@c.io") 0 7 (95/100),
            PIIMatch.mk .PHONE (strL "55512") 3 8 (95/100)], m.start < m.stop) ∧
    List.Pairwise (fun a b => a.stop ≤ b.start ∧ a.start < b.start)
      (detect_from_matches [PIIMatch.mk .EMAIL (strL "ab@c.io") 0 7 (95/100),
                            PIIMatch.mk .PHONE (strL "55512") 3 8 (95/100)]) :=
  ⟨by decide,
   (detect_spans_sorted_nonoverlapping
      [PIIMatch.mk .EMAIL (strL "ab@c.io") 0 7 (95/100),
       PIIMatch.mk .PHONE (strL "55512") 3 8 (95/100)] (by decide)).2.2⟩

-- ===========================================================================
-- JSON values (Python json.loads / json.dumps, as used by the parsers)
-- ===========================================================================

mutual

/-- A JSON value as produced by `json.loads`.  Numbers are modelled as `Int`:
the request/response bodies the transformer handles carry integer numerics;
floats are out of scope of the embedding (the parser below rejects them). -/
inductive JVal where
  | jnull : JVal
  | jbool : Bool → JVal
  | jnum : Int → JVal
  | jstr : List Char → JVal
  | jarr : JArr → JVal
  | jobj : JObj → JVal

/-- A JSON array (Python list). -/
inductive JArr where
  | nil : JArr
  | cons : JVal → JArr → JArr

/-- A JSON object (Python dict, insertion-ordered). -/
inductive JObj where
  | nil : JObj
  | cons : List Char → JVal → JObj → JObj

end

deriving instance DecidableEq for JVal
deriving instance DecidableEq for JArr
deriving instance DecidableEq for JObj

/-- JSON whitespace (also Python `str.strip` set minus vertical tab/form feed). -/
def isJsonWs (c : Char) : Bool := c == ' ' || c == '\t' || c == '\n' || c == '\r'

/-- Skip JSON whitespace. -/
def skipWs (l : List Char) : List Char := l.dropWhile isJsonWs

/-- ASCII decimal digit test. -/
def isDigitC (c : Char) : Bool := '0' ≤ c && c ≤ '9'

/-- Hex digit value of a character, if any. -/
def hexVal (c : Char) : Option Nat :=
  if '0' ≤ c ∧ c ≤ '9' then some (c.toNat - 48)
  else if 'a' ≤ c ∧ c ≤ 'f' then some (c.toNat - 87)
  else if 'A' ≤ c ∧ c ≤ 'F' then some (c.toNat - 55)
  else none

/-- Parse the body of a JSON string after the opening quote; returns the
decoded characters and the remaining input.  `fuel` is the input length. -/
def pStringAux : Nat → List Char → Option (List Char × List Char)
  | _, '"' :: rest => some ([], rest)
  | fuel + 1, '\\' :: rest =>
    (match rest with
     | '"' :: r => (pStringAux fuel r).map (fun p => ('"' :: p.1, p.2))
     | '\\' :: r => (pStringAux fuel r).map (fun p => ('\\' :: p.1, p.2))
     | '/' :: r => (pStringAux fuel r).map (fun p => ('/' :: p.1, p.2))
     | 'b' :: r => (pStringAux fuel r).map (fun p => (Char.ofNat 8 :: p.1, p.2))
     | 'f' :: r => (pStringAux fuel r).map (fun p => (Char.ofNat 12 :: p.1, p.2))
     | 'n' :: r => (pStringAux fuel r).map (fun p => ('\n' :: p.1, p.2))
     | 'r' :: r => (pStringAux fuel r).map (fun p => (Char.ofNat 13 :: p.1, p.2))
     | 't' :: r => (pStringAux fuel r).map (fun p => ('\t' :: p.1, p.2))
     | 'u' :: h1 :: h2 :: h3 :: h4 :: r =>
       (match hexVal h1, hexVal h2, hexVal h3, hexVal h4 with
        | some a, some b, some c, some d =>
          let n := ((a * 16 + b) * 16 + c) * 16 + d
          if 0xD800 ≤ n ∧ n ≤ 0xDFFF then none
          else (pStringAux fuel r).map (fun p => (Char.ofNat n :: p.1, p.2))
        | _, _, _, _ => none)
     | _ => none)
  | fuel + 1, c :: rest =>
    if c.toNat < 0x20 then none
    else (pStringAux fuel rest).map (fun p => (c :: p.1, p.2))
  | _, _ => none

/-- Parse a JSON integer literal (strict: no leading zeros, no floats). -/
def pNum (l : List Char) : Option (JVal × List Char) :=
  let (neg, l') := match l with
                   | '-' :: r => (true, r)
                   | _ => (false, l)
  let ds := l'.takeWhile isDigitC
  if ds.isEmpty then none
  else if ds.headD '0' = '0' ∧ ds.length > 1 then none
  else
    let rest := l'.drop ds.length
    match rest with
    | '.' :: _ => none
    | 'e' :: _ => none
    | 'E' :: _ => none
    | _ =>
      let v : Nat := ds.foldl (fun acc c => acc * 10 + (c.toNat - 48)) 0
      some (.jnum (if neg then -(v : Int) else (v : Int)), rest)

mutual

/-- Recursive-descent JSON parser (Python `json.loads`).  `fuel` bounds the
recursion; `2 * length + 2` suffices since at least one input character is
consumed every two recursion levels. -/
def pVal : Nat → List Char → Option (JVal × List Char)
  | 0, _ => none
  | fuel + 1, l =>
    match skipWs l with
    | 'n' :: 'u' :: 'l' :: 'l' :: r => some (.jnull, r)
    | 't' :: 'r' :: 'u' :: 'e' :: r => some (.jbool true, r)
    | 'f' :: 'a' :: 'l' :: 's' :: 'e' :: r => some (.jbool false, r)
    | '"' :: r => (pStringAux r.length r).map (fun p => (.jstr p.1, p.2))
    | '[' :: r => (pArrBody fuel (skipWs r)).map (fun p => (.jarr p.1, p.2))
    | '{' :: r => (pObjBody fuel (skipWs r)).map (fun p => (.jobj p.1, p.2))
    | l' => pNum l'

/-- Parse array items (positioned at the first item or `]`). -/
def pArrBody : Nat → List Char → Option (JArr × List Char)
  | 0, _ => none
  | fuel + 1, l =>
    match l with
    | ']' :: r => some (.nil, r)
    | _ =>
      match pVal fuel l with
      | none => none
      | some (v, r) =>
        match skipWs r with
        | ',' :: r2 =>
          (pArrBody fuel (skipWs r2)).map (fun p => (.cons v p.1, p.2))
        | ']' :: r2 => some (.cons v .nil, r2)
        | _ => none

/-- Parse object members (positioned at the first key or `}`). -/
def pObjBody : Nat → List Char → Option (JObj × List Char)
  | 0, _ => none
  | fuel + 1, l =>
    match l with
    | '}' :: r => some (.nil, r)
    | '"' :: r =>
      match pStringAux r.length r with
      | none => none
      | some (key, r1) =>
        match skipWs r1 with
        | ':' :: r2 =>
          match pVal fuel (skipWs r2) with
          | none => none
          | some (v, r3) =>
            match skipWs r3 with
            | ',' :: r4 =>
              (pObjBody fuel (skipWs r4)).map (fun p => (.cons key v p.1, p.2))
            | '}' :: r4 => some (.cons key v .nil, r4)
            | _ => none
        | _ => none
    | _ => none

end

/-- Python `json.loads`: parse one JSON document, allow surrounding
whitespace, reject trailing input.  `none` models `json.JSONDecodeError`.
(Duplicate object keys and float literals, which the transformer's inputs do
not contain, are not modelled.) -/
def jsonParse (s : List Char) : Option JVal :=
  match pVal (2 * s.length + 2) s with
  | some (v, rest) => if (skipWs rest).isEmpty then some v else none
  | none => none

/-- `\uXXXX` escape, lowercase hex (as CPython's json emits). -/
def uEscape4 (n : Nat) : List Char :=
  '\\' :: 'u' :: (List.range 4).map (fun i => hexDigit (n >>> (12 - 4 * i)))

/-- Escape one character as Python `json.dumps` does with the default
`ensure_ascii=True`: short escapes for `"`, `\`, backspace, form feed,
newline, carriage return, tab; `\uXXXX` (surrogate pairs above the BMP) for
every other character outside printable ASCII. -/
def escChar (c : Char) : List Char :=
  if c = '"' then ['\\', '"']
  else if c = '\\' then ['\\', '\\']
  else if c.toNat = 8 then ['\\', 'b']
  else if c.toNat = 12 then ['\\', 'f']
  else if c = '\n' then ['\\', 'n']
  else if c.toNat = 13 then ['\\', 'r']
  else if c = '\t' then ['\\', 't']
  else if c.toNat < 0x20 ∨ c.toNat > 0x7E then
    if c.toNat < 0x10000 then uEscape4 c.toNat
    else
      uEscape4 (0xD800 + ((c.toNat - 0x10000) >>> 10)) ++
      uEscape4 (0xDC00 + ((c.toNat - 0x10000) &&& 0x3FF))
  else [c]

/-- `json.dumps` of a string value. -/
def jdumpStr (s : List Char) : List Char :=
  '"' :: (s.map escChar).flatten ++ ['"']

/-- Decimal digits of a natural number (`fuel` is the number itself). -/
def natCharsGo : Nat → Nat → List Char → List Char
  | 0, _, acc => acc
  | fuel + 1, n, acc =>
    if n = 0 then acc else natCharsGo fuel (n / 10) (hexDigit (n % 10) :: acc)

/-- Decimal rendering of a natural number. -/
def natChars (n : Nat) : List Char :=
  if n = 0 then ['0'] else natCharsGo n n []

/-- Decimal rendering of an integer. -/
def intChars (i : Int) : List Char :=
  if i < 0 then '-' :: natChars i.natAbs else natChars i.natAbs

mutual

/-- Python `json.dumps` with the default separators `", "` and `": "` and
`ensure_ascii=True`. -/
def jdump : JVal → List Char
  | .jnull => strL "null"
  | .jbool true => strL "true"
  | .jbool false => strL "false"
  | .jnum i => intChars i
  | .jstr s => jdumpStr s
  | .jarr a => '[' :: jdumpArr a ++ [']']
  | .jobj o => '{' :: jdumpObj o ++ ['}']

/-- Array items joined by `", "`. -/
def jdumpArr : JArr → List Char
  | .nil => []
  | .cons v .nil => jdump v
  | .cons v (.cons w rest) => jdump v ++ strL ", " ++ jdumpArr (.cons w rest)

/-- Object members `key: value` joined by `", "`. -/
def jdumpObj : JObj → List Char
  | .nil => []
  | .cons k v .nil => jdumpStr k ++ strL ": " ++ jdump v
  | .cons k v (.cons k2 w rest) =>
    jdumpStr k ++ strL ": " ++ jdump v ++ strL ", " ++ jdumpObj (.cons k2 w rest)

end

-- ===========================================================================
-- JSON path matching (request_parser.py, RequestParser._path_matches 113-137)
-- ===========================================================================

/-- Match a whole string against one converted pattern: the source turns
`[*]` into `\[\d+\]` and escapes dots, so every character is literal except
the wildcard, which matches `[` digits `]`.  (Provider patterns contain no
other regex metacharacters.) -/
def patMatch : List Char → List Char → Bool
  | [], s => s.isEmpty
  | '[' :: '*' :: ']' :: ps, s =>
    (match s with
     | '[' :: rest =>
       let ds := rest.takeWhile isDigitC
       if ds.isEmpty then false
       else
         (match rest.drop ds.length with
          | ']' :: rest' => patMatch ps rest'
          | _ => false)
     | _ => false)
  | p :: ps, c :: s => p == c && patMatch ps s
  | _ :: _, [] => false

/-- `re.search(f"^{p}$|{p}$", path)`: the pattern matches the whole path or a
suffix of it ending at the end of the path. -/
def patSearch (pat path : List Char) : Bool :=
  path.tails.any (fun suf => patMatch pat suf)

/-- Remove every `[digits]` group (`re.sub(r'\[\d+\]', '', field)`). -/
def stripIndices : Nat → List Char → List Char
  | 0, s => s
  | fuel + 1, s =>
    match s with
    | [] => []
    | '[' :: rest =>
      let ds := rest.takeWhile isDigitC
      if ds.isEmpty then '[' :: stripIndices fuel rest
      else
        (match rest.drop ds.length with
         | ']' :: rest' => stripIndices fuel rest'
         | _ => '[' :: stripIndices fuel rest)
    | c :: rest => c :: stripIndices fuel rest

/-- ASCII lowercase (the field names compared are ASCII). -/
def lowerChar (c : Char) : Char :=
  if 'A' ≤ c ∧ c ≤ 'Z' then Char.ofNat (c.toNat + 32) else c

/-- Split on a separator character (Python `str.split(sep)`). -/
def splitOnChar (sep : Char) : List Char → List (List Char)
  | [] => [[]]
  | c :: rest =>
    let r := splitOnChar sep rest
    if c == sep then [] :: r
    else
      match r with
      | h :: t => (c :: h) :: t
      | [] => [[c]]

/-- `path.split(".")[-1] if "." in path else path` — in both cases the last
dot-separated segment. -/
def lastSegment (path : List Char) : List Char :=
  (splitOnChar '.' path).getLastD path

/-- The universal fallback field names of `_path_matches`. -/
def protectedFieldNames : List (List Char) :=
  [strL "content", strL "text", strL "prompt", strL "message", strL "input", strL "query"]

/-- `RequestParser._path_matches`: strip leading dots, try every declared
pattern as an anchored-or-suffix match, then fall back to the universal
field-name list on the last segment with `[i]` indices removed,
case-insensitively. -/
def path_matches (path0 : List Char) (patterns : List (List Char)) : Bool :=
  let path := path0.dropWhile (fun c => c == '.')
  patterns.any (fun pat => patSearch pat path) ||
    (let field := stripIndices (lastSegment path).length (lastSegment path)
     protectedFieldNames.any (fun n => n == field.map lowerChar))

-- ===========================================================================
-- protect_text (guardian_proxy.py, PrivacyGuardianProxy.protect_text 244-259)
-- ===========================================================================

/-- `protect_text`, parameterized by the detector (the compiled pattern
registry applied by `PIIDetector.detect` is not re-embedded; any span source
can be plugged in).  Matches are replaced right to left
(`matches.sort(key=lambda m: m.start, reverse=True)` — a stable descending
sort, as `insertionSort` with this relation is), interning each value.
Returns the protected text, the new vault state, and the number of interns
that were new (the `pii_items_protected` counter delta). -/
def protect_text (det : List Char → List PIIMatch) (st : Vault) (text : List Char)
    (provider : Option String) : List Char × Vault × Nat :=
  let ms := det text
  if ms.isEmpty then (text, st, 0)
  else
    (List.insertionSort (fun a b : PIIMatch => b.start ≤ a.start) ms).foldl
      (fun acc m =>
        let r := encrypt_pii acc.2.1 m.value m.pii_type provider
        (acc.1.take m.start ++ r.1.1 ++ acc.1.drop m.stop, r.2,
         acc.2.2 + if r.1.2 then 1 else 0))
      (text, st, 0)

/-- `protect_text` as the parser's `pii_protector` callback (the callback
returns only the text; the vault state is threaded alongside). -/
def parser_protect (det : List Char → List PIIMatch) (provider : Option String) :
    Vault → List Char → List Char × Vault :=
  fun st text =>
    ((protect_text det st text provider).1, (protect_text det st text provider).2.1)

-- ===========================================================================
-- Outbound JSON protection (request_parser.py, RequestParser 29-97)
-- ===========================================================================

mutual

/-- `RequestParser._protect_json_recursive` (61-97), threading the vault
state through the protect callback `pf`.  At a string leaf on a matched path
the leaf is protected and the count is incremented iff the string changed;
dict and list nodes recurse, extending the textual path (the `wildcard_path`
computed in the source's list branch is unused there and has no effect). -/
def protect_json (pf : Vault → List Char → List Char × Vault)
    (paths : List (List Char)) : JVal → List Char → Vault → JVal × Nat × Vault
  | .jstr s, cp, st =>
    if path_matches cp paths then
      let r := pf st s
      (.jstr r.1, (if r.1 = s then 0 else 1), r.2)
    else (.jstr s, 0, st)
  | .jarr a, cp, st =>
    let r := protect_jarr pf paths a cp 0 st
    (.jarr r.1, r.2.1, r.2.2)
  | .jobj o, cp, st =>
    let r := protect_jobj pf paths o cp st
    (.jobj r.1, r.2.1, r.2.2)
  | v, _, st => (v, 0, st)

/-- List branch: `new_path = f"{current_path}[{i}]"`. -/
def protect_jarr (pf : Vault → List Char → List Char × Vault)
    (paths : List (List Char)) : JArr → List Char → Nat → Vault → JArr × Nat × Vault
  | .nil, _, _, st => (.nil, 0, st)
  | .cons v rest, cp, i, st =>
    let r1 := protect_json pf paths v (cp ++ '[' :: natChars i ++ [']']) st
    let r2 := protect_jarr pf paths rest cp (i + 1) r1.2.2
    (.cons r1.1 r2.1, r1.2.1 + r2.2.1, r2.2.2)

/-- Dict branch: `new_path = f"{current_path}.{key}" if current_path else key`. -/
def protect_jobj (pf : Vault → List Char → List Char × Vault)
    (paths : List (List Char)) : JObj → List Char → Vault → JObj × Nat × Vault
  | .nil, _, st => (.nil, 0, st)
  | .cons k v rest, cp, st =>
    let r1 := protect_json pf paths v (if cp.isEmpty then k else cp ++ '.' :: k) st
    let r2 := protect_jobj pf paths rest cp r1.2.2
    (.cons k r1.1 r2.1, r1.2.1 + r2.2.1, r2.2.2)

end

/-- `RequestParser.protect_request` (29-45): parse the body as JSON; on
failure protect it as plain text and return count 0; otherwise protect along
the provider's message paths and re-serialize.  Returns
`(modified_body, pii_count)` and the vault state. -/
def protect_request (pf : Vault → List Char → List Char × Vault)
    (paths : List (List Char)) (st : Vault) (body : List Char) :
    (List Char × Nat) × Vault :=
  match jsonParse body with
  | none => (((pf st body).1, 0), (pf st body).2)
  | some d =>
    let r := protect_json pf paths d [] st
    ((jdump r.1, r.2.1), r.2.2)

mutual

/-- Number of string-leaf positions at which two structurally equal JSON
trees differ (the specification-side count of "fields changed by
protection"). -/
def diffStrings : JVal → JVal → Nat
  | .jstr a, .jstr b => if a = b then 0 else 1
  | .jarr xs, .jarr ys => diffArr xs ys
  | .jobj ms, .jobj ns => diffObj ms ns
  | _, _ => 0

/-- Pointwise `diffStrings` over array items. -/
def diffArr : JArr → JArr → Nat
  | .cons x xs, .cons y ys => diffStrings x y + diffArr xs ys
  | _, _ => 0

/-- Pointwise `diffStrings` over object values. -/
def diffObj : JObj → JObj → Nat
  | .cons _ v ms, .cons _ w ns => diffStrings v w + diffObj ms ns
  | _, _ => 0

end

theorem protect_json_count_leaf (pf : Vault → List Char → List Char × Vault)
    (paths : List (List Char)) (s cp : List Char) (st : Vault) :
    (protect_json pf paths (.jstr s) cp st).2.1 =
      diffStrings (.jstr s) (protect_json pf paths (.jstr s) cp st).1 := by
  simp only [protect_json]
  by_cases hm : path_matches cp paths
  · rw [if_pos hm]
    rcases eq_or_ne (pf st s).1 s with he | he
    · simp [diffStrings, he]
    · have he2 : ¬ (s = (pf st s).1) := fun h => he h.symm
      simp [diffStrings, he, he2]
  · rw [if_neg hm]
    simp [diffStrings]

mutual

theorem protect_json_count (pf : Vault → List Char → List Char × Vault)
    (paths : List (List Char)) :
    ∀ (v : JVal) (cp : List Char) (st : Vault),
      (protect_json pf paths v cp st).2.1 =
        diffStrings v (protect_json pf paths v cp st).1
  | .jnull, cp, st => by simp [protect_json, diffStrings]
  | .jbool b, cp, st => by simp [protect_json, diffStrings]
  | .jnum n, cp, st => by simp [protect_json, diffStrings]
  | .jstr s, cp, st => protect_json_count_leaf pf paths s cp st
  | .jarr a, cp, st => by
    have h := protect_jarr_count pf paths a cp 0 st
    simp only [protect_json, diffStrings]
    exact h
  | .jobj o, cp, st => by
    have h := protect_jobj_count pf paths o cp st
    simp only [protect_json, diffStrings]
    exact h

theorem protect_jarr_count (pf : Vault → List Char → List Char × Vault)
    (paths : List (List Char)) :
    ∀ (a : JArr) (cp : List Char) (i : Nat) (st : Vault),
      (protect_jarr pf paths a cp i st).2.1 =
        diffArr a (protect_jarr pf paths a cp i st).1
  | .nil, cp, i, st => by simp [protect_jarr, diffArr]
  | .cons v rest, cp, i, st => by
    have h1 := protect_json_count pf paths v (cp ++ '[' :: natChars i ++ [']']) st
    have h2 := protect_jarr_count pf paths rest cp (i + 1)
      (protect_json pf paths v (cp ++ '[' :: natChars i ++ [']']) st).2.2
    simp only [protect_jarr, diffArr]
    omega

theorem protect_jobj_count (pf : Vault → List Char → List Char × Vault)
    (paths : List (List Char)) :
    ∀ (o : JObj) (cp : List Char) (st : Vault),
      (protect_jobj pf paths o cp st).2.1 =
        diffObj o (protect_jobj pf paths o cp st).1
  | .nil, cp, st => by simp [protect_jobj, diffObj]
  | .cons k v rest, cp, st => by
    have h1 := protect_json_count pf paths v (if cp.isEmpty then k else cp ++ '.' :: k) st
    have h2 := protect_jobj_count pf paths rest cp
      (protect_json pf paths v (if cp.isEmpty then k else cp ++ '.' :: k) st).2.2
    simp only [protect_jobj, diffObj]
    omega

end

/-- C6 (amended): `protect_request` returns the modified body together with
the number of string fields whose protected form differs from the original
(0 when the body is not JSON) — not, in general, the number of
newly-interned PII items. -/
theorem protect_request_counts_changed_fields
    (pf : Vault → List Char → List Char × Vault) (paths : List (List Char))
    (st : Vault) (body : List Char) :
    (protect_request pf paths st body).1.2 =
      match jsonParse body with
      | none => 0
      | some d => diffStrings d (protect_json pf paths d [] st).1 := by
  cases h : jsonParse body with
  | none => simp [protect_request, h]
  | some d => simp [protect_request, h, protect_json_count]

/-- A toy detector used as the `pii_protector` instance for the C6
counterexample: on the exact text `a@b.co c@d.co` it reports the two email
spans (as the real pattern registry does on that text); elsewhere nothing. -/
def toyDet (text : List Char) : List PIIMatch :=
  if text = strL "a@b.co c@d.co" then
    [PIIMatch.mk .EMAIL (strL "a@b.co") 0 6 (95/100),
     PIIMatch.mk .EMAIL (strL "c@d.co") 7 13 (95/100)]
  else []

/-- The Anthropic provider's `message_paths` (llm_endpoints.py 38-41). -/
def anthropic_message_paths : List (List Char) :=
  [strL "messages[*].content", strL "prompt"]

/-- C6 counterexample: a request whose single `content` field holds two fresh
PII values is reported with `pii_count` 1 by `protect_request`, while the
vault interned 2 new items in that request — so the returned count is not the
count of newly-interned PII items. -/
theorem protect_request_count_counterexample :
    (protect_request (parser_protect toyDet (some "Anthropic"))
        anthropic_message_paths emptyVault
        (strL "\x7b\"content\": \"a@b.co c@d.co\"\x7d")).1.2 = 1 ∧
    (protect_request (parser_protect toyDet (some "Anthropic"))
        anthropic_message_paths emptyVault
        (strL "\x7b\"content\": \"a@b.co c@d.co\"\x7d")).2.entries.length = 2 := by
  exact ⟨by decide, by decide⟩

-- ===========================================================================
-- Streaming parser (request_parser.py, StreamingParser 140-187)
-- ===========================================================================

mutual

/-- `StreamingParser._unprotect_recursive` with the proxy's `unprotect_text`
as the unprotector. -/
def unprotect_jval (st : Vault) : JVal → JVal
  | .jstr s => .jstr (unprotect_text st s)
  | .jarr a => .jarr (unprotect_jarr st a)
  | .jobj o => .jobj (unprotect_jobj st o)
  | v => v

/-- List branch of `_unprotect_recursive`. -/
def unprotect_jarr (st : Vault) : JArr → JArr
  | .nil => .nil
  | .cons v rest => .cons (unprotect_jval st v) (unprotect_jarr st rest)

/-- Dict branch of `_unprotect_recursive`. -/
def unprotect_jobj (st : Vault) : JObj → JObj
  | .nil => .nil
  | .cons k v rest => .cons k (unprotect_jval st v) (unprotect_jobj st rest)

end

/-- Python `str.strip` whitespace set. -/
def isPyWs (c : Char) : Bool :=
  c.toNat = 32 || c.toNat = 9 || c.toNat = 10 || c.toNat = 13 ||
  c.toNat = 11 || c.toNat = 12

/-- Python `str.strip()`. -/
def stripPy (s : List Char) : List Char :=
  ((s.dropWhile isPyWs).reverse.dropWhile isPyWs).reverse

/-- Handling of one line of `StreamingParser.process_chunk` (161-175):
`data: ` lines have their payload passed through (`[DONE]`), detokenized as
JSON, or detokenized as plain text; other lines pass through. -/
def process_line (st : Vault) (line : List Char) : List Char :=
  if (strL "data: ").isPrefixOf line then
    let data_part := line.drop 6
    if stripPy data_part = strL "[DONE]" then line
    else
      match jsonParse data_part with
      | some j => strL "data: " ++ jdump (unprotect_jval st j)
      | none => strL "data: " ++ unprotect_text st data_part
  else line

/-- `StreamingParser.process_chunk` (150-177): decode the chunk (pass it
through on decode failure), split on newlines, process each line, re-join.
The parser's `self.buffer` field is initialized in `__init__` but never read
or written afterwards, so no state crosses chunk boundaries — exactly as in
the source. -/
def process_chunk (st : Vault) (chunk : List Nat) : List Nat :=
  match utf8Decode chunk with
  | none => chunk
  | some text =>
    utf8Bytes (List.intercalate ['\n'] ((splitOnChar '\n' text).map (process_line st)))

/-- A vault holding one mapping `◈PG:EMAI_0123456789ab◈ ↦ bob@x.io`. -/
def vaultBob : Vault :=
  ⟨[⟨strL "◈PG:EMAI_0123456789ab◈", "EMAIL", strL "bob@x.io", 1, none⟩], []⟩

/-- C3 evaluated at the failing input: processing the SSE message
`data: Hello ◈PG:EMAI_0123456789ab◈\n\n` as one chunk detokenizes it, but
split into two chunks at the middle of the `data:` line, each piece passes
through unchanged, so the concatenation of the per-chunk outputs differs from
the detokenization of the concatenated input — chunk boundaries do change the
output, and nothing is buffered until a newline. -/
theorem streaming_chunk_split_divergence :
    process_chunk vaultBob
        (utf8Bytes (strL "data: Hello ◈PG:EMAI_0123456789ab◈\n\n")) =
      utf8Bytes (strL "data: Hello bob@x.io\n\n") ∧
    process_chunk vaultBob (utf8Bytes (strL "data: Hello ◈PG:EMAI")) ++
      process_chunk vaultBob (utf8Bytes (strL "_0123456789ab◈\n\n")) =
      utf8Bytes (strL "data: Hello ◈PG:EMAI_0123456789ab◈\n\n") ∧
    process_chunk vaultBob (utf8Bytes (strL "data: Hello ◈PG:EMAI")) ++
      process_chunk vaultBob (utf8Bytes (strL "_0123456789ab◈\n\n")) ≠
      process_chunk vaultBob
        (utf8Bytes (strL "data: Hello ◈PG:EMAI") ++ utf8Bytes (strL "_0123456789ab◈\n\n")) := by
  refine ⟨by decide, by decide, by decide⟩

-- ===========================================================================
-- Proxy dispatch (guardian_proxy.py, _proxy_regular 347-382,
-- _proxy_streaming 384-428, proxy_request generic branch 316-323)
-- ===========================================================================

/-- An upstream HTTP response (httpx normalizes header names to lowercase). -/
structure UpstreamResponse where
  status : Nat
  headers : List (List Char × List Char)
  body : List Char
deriving DecidableEq

/-- A buffered response returned to the client. -/
structure ProxyResponse where
  status : Nat
  headers : List (List Char × List Char)
  body : List Char
deriving DecidableEq

/-- What the streaming path returns: a buffered response or a streamed one. -/
inductive StreamResult where
  | buffered (r : ProxyResponse)
  | streamed (headers : List (List Char × List Char)) (chunks : List (List Nat))
deriving DecidableEq

/-- The hop-by-hop header names popped by `_proxy_regular`. -/
def hop_by_hop : List (List Char) :=
  [strL "transfer-encoding", strL "connection", strL "keep-alive",
   strL "content-encoding", strL "content-length"]

/-- `resp_headers.pop(h, None)` for each hop-by-hop name: drop those keys. -/
def strip_hop_headers (hs : List (List Char × List Char)) :
    List (List Char × List Char) :=
  hs.filter (fun kv => decide (kv.1 ∉ hop_by_hop))

/-- `json.dumps({"error": str(e)})`. -/
def error_body (e : List Char) : List Char :=
  jdump (.jobj (.cons (strL "error") (.jstr e) .nil))

/-- `PrivacyGuardianProxy._proxy_regular`: the upstream round-trip either
fails (`Except.error` carries `str(e)`) — then a 502 JSON error is returned —
or yields a response whose body is detokenized (`unp` is the provider-aware
or generic inbound transform) and whose headers are returned with the
hop-by-hop names stripped. -/
def proxy_regular (upstream : Except (List Char) UpstreamResponse)
    (unp : List Char → List Char) : ProxyResponse :=
  match upstream with
  | .error e =>
    { status := 502, headers := [(strL "content-type", strL "application/json")],
      body := error_body e }
  | .ok r =>
    { status := r.status, headers := strip_hop_headers r.headers, body := unp r.body }

/-- `PrivacyGuardianProxy._proxy_streaming`: a failing pre-flight request is
answered with status 500 and a JSON error body; an upstream error status
(≥ 400) is passed through buffered with its headers unmodified; otherwise the
chunks are piped through the streaming parser under media type
`text/event-stream`. -/
def proxy_streaming (upstream : Except (List Char) UpstreamResponse)
    (st : Vault) (chunks : List (List Nat)) : StreamResult :=
  match upstream with
  | .error e =>
    .buffered { status := 500, headers := [(strL "content-type", strL "application/json")],
                body := error_body e }
  | .ok r =>
    if r.status ≥ 400 then
      .buffered { status := r.status, headers := r.headers, body := r.body }
    else
      .streamed [(strL "content-type", strL "text/event-stream")]
        (chunks.map (process_chunk st))

/-- C7 (amended): when the upstream request cannot be performed, the buffered
dispatch path returns HTTP 502 with the JSON body `{"error": "..."}`; the
streaming dispatch path returns HTTP 500 (not 502) with the same JSON error
body. -/
theorem upstream_unreachable_error_statuses (e : List Char)
    (unp : List Char → List Char) (st : Vault) (chunks : List (List Nat)) :
    (proxy_regular (.error e) unp).status = 502 ∧
    (proxy_regular (.error e) unp).body = error_body e ∧
    proxy_streaming (.error e) st chunks =
      .buffered { status := 500,
                  headers := [(strL "content-type", strL "application/json")],
                  body := error_body e } :=
  ⟨rfl, rfl, rfl⟩

/-- C7 counterexample: on the streaming dispatch path an unreachable upstream
is answered with status 500, not 502. -/
theorem upstream_unreachable_streaming_counterexample :
    proxy_streaming (.error (strL "connection refused")) emptyVault [] =
      .buffered { status := 500,
                  headers := [(strL "content-type", strL "application/json")],
                  body := error_body (strL "connection refused") } ∧
    (500 : Nat) ≠ 502 :=
  ⟨rfl, by decide⟩

theorem strip_hop_headers_sound (hs : List (List Char × List Char)) :
    ∀ kv ∈ strip_hop_headers hs, kv.1 ∉ hop_by_hop := by
  intro kv hkv
  have h := (List.mem_filter.mp hkv).2
  exact of_decide_eq_true h

/-- C8 (amended): hop-by-hop headers never appear in the responses of the
buffered path (success or error) nor in the synthetic responses of the
streaming path (pre-flight failure, or the streamed response itself); but an
upstream error response (status ≥ 400) reaching the streaming path is
forwarded with its headers unfiltered, so hop-by-hop headers can appear
there (see the counterexample). -/
theorem hop_by_hop_never_in_responses (up : UpstreamResponse) (e : List Char)
    (st : Vault) (chunks : List (List Nat)) (unp : List Char → List Char)
    (hok : up.status < 400) :
    (∀ kv ∈ (proxy_regular (.ok up) unp).headers, kv.1 ∉ hop_by_hop) ∧
    (∀ kv ∈ (proxy_regular (.error e) unp).headers, kv.1 ∉ hop_by_hop) ∧
    (match proxy_streaming (.error e) st chunks with
     | .buffered r => ∀ kv ∈ r.headers, kv.1 ∉ hop_by_hop
     | .streamed hs _ => ∀ kv ∈ hs, kv.1 ∉ hop_by_hop) ∧
    (match proxy_streaming (.ok up) st chunks with
     | .buffered r => ∀ kv ∈ r.headers, kv.1 ∉ hop_by_hop
     | .streamed hs _ => ∀ kv ∈ hs, kv.1 ∉ hop_by_hop) := by
  refine ⟨strip_hop_headers_sound up.headers, ?_, ?_, ?_⟩
  · intro kv hkv
    rw [List.mem_singleton.mp hkv]
    decide
  · intro kv hkv
    rw [List.mem_singleton.mp hkv]
    decide
  · rw [proxy_streaming, if_neg (by omega)]
    intro kv hkv
    rw [List.mem_singleton.mp hkv]
    decide

/-- Witness for C8 at a concrete upstream 200 response that does carry
hop-by-hop headers: they are stripped on the buffered path and absent from
the streamed response's headers. -/
theorem hop_by_hop_never_in_responses_witness :
    (∀ kv ∈ (proxy_regular
        (.ok ⟨200, [(strL "transfer-encoding", strL "chunked"),
                    (strL "content-type", strL "application/json")], strL "ok"⟩)
        id).headers, kv.1 ∉ hop_by_hop) ∧
    (match proxy_streaming
        (.ok ⟨200, [(strL "transfer-encoding", strL "chunked"),
                    (strL "content-type", strL "application/json")], strL "ok"⟩)
        emptyVault [] with
     | .buffered r => ∀ kv ∈ r.headers, kv.1 ∉ hop_by_hop
     | .streamed hs _ => ∀ kv ∈ hs, kv.1 ∉ hop_by_hop) :=
  ⟨(hop_by_hop_never_in_responses
      ⟨200, [(strL "transfer-encoding", strL "chunked"),
             (strL "content-type", strL "application/json")], strL "ok"⟩
      (strL "e") emptyVault [] id (by decide)).1,
   (hop_by_hop_never_in_responses
      ⟨200, [(strL "transfer-encoding", strL "chunked"),
             (strL "content-type", strL "application/json")], strL "ok"⟩
      (strL "e") emptyVault [] id (by decide)).2.2.2⟩

/-- C8 counterexample: an upstream 400 response carrying `Transfer-Encoding`
reaches the client through the streaming dispatch path with that hop-by-hop
header intact. -/
theorem hop_by_hop_streaming_counterexample :
    proxy_streaming
        (.ok ⟨400, [(strL "transfer-encoding", strL "chunked")], strL "err"⟩)
        emptyVault [] =
      .buffered ⟨400, [(strL "transfer-encoding", strL "chunked")], strL "err"⟩ ∧
    strL "transfer-encoding" ∈ hop_by_hop :=
  ⟨rfl, by decide⟩

/-- The generic-provider body handling of `proxy_request` (316-323): decode
the body, protect it, re-encode — and on any exception (`except: pass`)
silently keep the original body.  The protect step is abstracted as an
`Except`-valued function so that a raised exception can be represented; the
per-request PII count is not touched on this branch, hence the constant 0
second component. -/
def generic_protect_step (body : List Nat) :
    Except (List Char) (List Char) → List Nat × Nat
  | .error _ => (body, 0)
  | .ok prot => (utf8Bytes prot, 0)

def generic_decode_step (body : List Nat)
    (protectFn : List Char → Except (List Char) (List Char)) :
    Option (List Char) → List Nat × Nat
  | none => (body, 0)
  | some text => generic_protect_step body (protectFn text)

def generic_protect_branch (body : List Nat)
    (protectFn : List Char → Except (List Char) (List Char)) : List Nat × Nat :=
  generic_decode_step body protectFn (utf8Decode body)

/-- C10: on the generic outbound path, any exception raised while decoding or
protecting the body is swallowed: the original body is forwarded unchanged,
the request proceeds (no error response is produced for the client), and the
request's PII counter stays 0. -/
theorem generic_path_swallows_errors (body : List Nat)
    (protectFn : List Char → Except (List Char) (List Char)) :
    (utf8Decode body = none → generic_protect_branch body protectFn = (body, 0)) ∧
    (∀ t e, utf8Decode body = some t → protectFn t = .error e →
      generic_protect_branch body protectFn = (body, 0)) ∧
    (generic_protect_branch body protectFn).2 = 0 := by
  refine ⟨fun h => by rw [generic_protect_branch, h]; rfl, fun t e ht he => ?_, ?_⟩
  · rw [generic_protect_branch, ht]
    simp only [generic_decode_step, he]
    rfl
  · rw [generic_protect_branch]
    cases utf8Decode body with
    | none => rfl
    | some t =>
      simp only [generic_decode_step]
      cases protectFn t <;> rfl

/-- Witness for C10: a body that decodes fine but whose protection raises
(e.g. a vault store failure) is forwarded byte-identically with counter 0. -/
theorem generic_path_swallows_errors_witness :
    generic_protect_branch (utf8Bytes (strL "hi"))
        (fun _ => .error (strL "database is locked")) =
      (utf8Bytes (strL "hi"), 0) :=
  (generic_path_swallows_errors (utf8Bytes (strL "hi"))
      (fun _ => .error (strL "database is locked"))).2.1
    (strL "hi") (strL "database is locked") (by decide) rfl

end PrivacyGuardian
